import Mathlib

/-!
Verification development for the content-API repository
(`contents/models.py`, `contents/views.py`, `contents/tasks.py`).

The Django models are embedded as Lean structures, the relational store as
lists of rows, and the view/task bodies as executable Lean functions that
mirror the Python control flow statement by statement.  SQL/Python real
arithmetic (the `FloatField` casts) is modelled over `ℚ`; machine floats are
not modelled, which is exact for every value appearing in the claims.
-/

namespace Zelf

/-! ## Data model (contents/models.py)

Rows carry their primary key (`id`) explicitly; `JSONField` blobs
(`big_metadata`, `secret_value`) and the `created_at`/`update_at` audit
columns play no role in any claim and are omitted.  Timestamps are modelled
as seconds (`Int`), `null` timestamps as `none`. -/

structure Author where
  id : Nat
  name : String
  username : String
  unique_id : String
  url : String
  title : String
  followers : Int
deriving Repr, DecidableEq

structure Content where
  id : Nat
  author_id : Nat
  unique_id : String
  url : String
  title : String
  like_count : Int
  comment_count : Int
  view_count : Int
  share_count : Int
  thumbnail_url : String
  timestamp : Option Int
  is_commented : Bool
deriving Repr, DecidableEq

structure Tag where
  id : Nat
  name : String
deriving Repr, DecidableEq

structure ContentTag where
  content_id : Nat
  tag_id : Nat
deriving Repr, DecidableEq

/-- The relational store: one list per table, plus the auto-increment
counters the database uses for primary keys. -/
structure Store where
  authors : List Author
  contents : List Content
  tags : List Tag
  contentTags : List ContentTag
  nextAuthorId : Nat
  nextContentId : Nat
  nextTagId : Nat
deriving Repr, DecidableEq

def emptyStore : Store := ⟨[], [], [], [], 1, 1, 1⟩

/-! ## Python string/int primitives used by the views -/

/-- Occurrence of `pat` as a contiguous sublist of `l`. -/
def hasSubList (pat : List Char) : List Char → Bool
  | [] => pat.isEmpty
  | c :: rest => pat.isPrefixOf (c :: rest) || hasSubList pat rest

/-- Python's `pat in s` substring test. -/
def strContains (s pat : String) : Bool :=
  hasSubList pat.data s.data

def isPySpace (c : Char) : Bool :=
  c == ' ' || c == '\t' || c == '\n' || c == '\r' || c == '\x0b' || c == '\x0c'

/-- Python's `int(str)`: optional surrounding whitespace, an optional sign,
then decimal digits.  (Python additionally allows `_` digit grouping,
non-ASCII digits and Unicode whitespace; no claim depends on those
inputs.) -/
def pyInt (s : String) : Option Int :=
  let t := ((s.data.dropWhile isPySpace).reverse.dropWhile isPySpace).reverse
  let signed : Bool × List Char :=
    match t with
    | '-' :: rest => (true, rest)
    | '+' :: rest => (false, rest)
    | _ => (false, t)
  if signed.2.isEmpty || !(signed.2.all (fun c => c.isDigit)) then none
  else
    let n : Nat := signed.2.foldl (fun acc c => acc * 10 + (c.toNat - 48)) 0
    some (if signed.1 then -(n : Int) else (n : Int))

/-! ## Read API query parameters

`author_id` and `tag_id` are held as integers (the views pass the raw
string to the ORM, which coerces it; a non-numeric value is a server
error outside every claim).  `timeframe`, `page` and `items_per_page`
are kept as raw strings because the claims are about their parsing.
`none` models an absent parameter; Django's truthiness test also skips
a present-but-empty string, which the filter functions below replicate. -/
structure QueryParams where
  author_id : Option Int
  author_username : Option String
  timeframe : Option String
  tag_id : Option Int
  title : Option String
  page : Option String
  items_per_page : Option String
deriving Repr, DecidableEq

def noParams : QueryParams := ⟨none, none, none, none, none, none, none⟩

/-! ## Shared filter chain

`ContentAPIView.get` (views.py 71-89) and `ContentStatsAPIView.get`
(views.py 252-271) apply the identical sequence of conditional filters:
author_id, author_username, timeframe, tag_id, title.  It is embedded once
and used by both endpoints. -/

def filterAuthorId (p : Option Int) (l : List Content) : List Content :=
  match p with
  | none => l
  | some aid => l.filter (fun c => (c.author_id : Int) == aid)

/-- `queryset.filter(author__username=...)`: an inner join to `Author`
on the row's foreign key. -/
def filterAuthorUsername (store : Store) (p : Option String)
    (l : List Content) : List Content :=
  match p with
  | none => l
  | some u =>
    if u == "" then l
    else l.filter (fun c =>
      match store.authors.find? (fun a => a.id == c.author_id) with
      | some a => a.username == u
      | none => false)

/-- `timestamp >= now - timedelta(days=int(timeframe))`, with parse failures
silently ignored (`except (ValueError, TypeError): pass`).  A SQL `NULL`
timestamp never satisfies the comparison. -/
def filterTimeframe (now : Int) (p : Option String) (l : List Content) :
    List Content :=
  match p with
  | none => l
  | some s =>
    if s == "" then l
    else
      match pyInt s with
      | some days =>
        l.filter (fun c =>
          match c.timestamp with
          | some t => decide (now - days * 86400 ≤ t)
          | none => false)
      | none => l

/-- `queryset.filter(contenttag__tag_id=...)`: a JOIN against the
`ContentTag` table, yielding one output row per matching join row (the
`(content, tag)` unique constraint makes this at most one per content). -/
def filterTagId (store : Store) (p : Option Int) (l : List Content) :
    List Content :=
  match p with
  | none => l
  | some tid =>
    l.flatMap (fun c =>
      List.replicate
        (store.contentTags.countP
          (fun ct => ct.content_id == c.id && (ct.tag_id : Int) == tid)) c)

/-- `title__icontains`: case-insensitive substring match. -/
def filterTitle (p : Option String) (l : List Content) : List Content :=
  match p with
  | none => l
  | some t =>
    if t == "" then l
    else l.filter (fun c =>
      hasSubList (t.data.map Char.toLower) (c.title.data.map Char.toLower))

def applyFilters (store : Store) (p : QueryParams) (now : Int) :
    List Content :=
  filterTitle p.title
    (filterTagId store p.tag_id
      (filterTimeframe now p.timeframe
        (filterAuthorUsername store p.author_username
          (filterAuthorId p.author_id store.contents))))

/-! ## Item annotation (views.py 56-69) -/

structure AnnotatedContent where
  content : Content
  total_engagement : Int
  engagement_rate : ℚ
deriving Repr, DecidableEq

/-- The two annotated metrics of `ContentAPIView.get`:
`total_engagement = like + comment + share` and
`engagement_rate = (like + comment + share) / CASE WHEN view = 0 THEN 1
ELSE view END` cast to a real number. -/
def annotate (c : Content) : AnnotatedContent :=
  { content := c
    total_engagement := c.like_count + c.comment_count + c.share_count
    engagement_rate :=
      ((c.like_count + c.comment_count + c.share_count : Int) : ℚ) /
        (if c.view_count = 0 then 1 else ((c.view_count : Int) : ℚ)) }

/-- `.order_by('-id')`: descending by primary key (insertion sort). -/
def insertByIdDesc (c : Content) : List Content → List Content
  | [] => [c]
  | x :: xs => if x.id ≤ c.id then c :: x :: xs else x :: insertByIdDesc c xs

def sortByIdDesc (l : List Content) : List Content :=
  l.foldr insertByIdDesc []

/-! ## Pagination (views.py 91-103, Django `Paginator`) -/

/-- The `try/except ValueError` block of views.py 92-100: both parameters
parse or both fall back to the defaults (`page = 1`,
`items_per_page = DEFAULT_PAGE_SIZE = 10`); a parsed per-page value is
capped at `MAX_PAGE_SIZE = 100`. -/
def parsePagination (pageP itemsP : Option String) : Int × Int :=
  match pyInt (pageP.getD "1"), pyInt (itemsP.getD "10") with
  | some pg, some ipp => (pg, min ipp 100)
  | _, _ => (1, 10)

structure ListingResponse where
  data : List AnnotatedContent
  current_page : Nat
  total_pages : Nat
  total_items : Nat
  items_per_page : Int
  has_next : Bool
  has_previous : Bool
deriving Repr, DecidableEq

/-- `ContentAPIView.get` end to end: filter, order, annotate, paginate.
Django's `Paginator` has `num_pages = ceil(max(1, count) / per_page)` and
`get_page` clamps an out-of-range page number to the last page.  A
non-positive per-page value makes the real `Paginator` raise (a server
error); that case is modelled as `none` and reached by no claim. -/
def contentListing (store : Store) (p : QueryParams) (now : Int) :
    Option ListingResponse :=
  let annotated := (sortByIdDesc (applyFilters store p now)).map annotate
  let pag := parsePagination p.page p.items_per_page
  if pag.2 ≤ 0 then none
  else
    let pp := pag.2.toNat
    let count := annotated.length
    let numPages := (max 1 count + (pp - 1)) / pp
    let pn := if pag.1 < 1 || pag.1 > (numPages : Int) then numPages
              else pag.1.toNat
    some
      { data := (annotated.drop ((pn - 1) * pp)).take pp
        current_page := pn
        total_pages := numPages
        total_items := count
        items_per_page := pag.2
        has_next := decide (pn < numPages)
        has_previous := decide (1 < pn) }

/-! ## Aggregate stats (views.py 242-291) -/

/-- SQL `SUM(expr)` over a queryset: `NULL` on an empty set, otherwise the
sum of the per-row values. -/
def sqlSumInt (l : List Content) (f : Content → Int) : Option Int :=
  match l with
  | [] => none
  | _ => some ((l.map f).sum)

def sqlSumRat (l : List Content) (f : Content → ℚ) : Option ℚ :=
  match l with
  | [] => none
  | _ => some ((l.map f).sum)

/-- `Sum('author__followers')` joins each content row to its author.  The
non-nullable foreign key guarantees the author row exists; a dangling key
(unreachable through this code) contributes 0 here where SQL would drop
the row. -/
def authorFollowers (store : Store) (c : Content) : Int :=
  match store.authors.find? (fun a => a.id == c.author_id) with
  | some a => a.followers
  | none => 0

structure StatsResponse where
  total_likes : Option Int
  total_shares : Option Int
  total_comments : Option Int
  total_views : Option Int
  total_followers : Option Int
  total_contents : Option Int
  total_engagement : Option Int
  total_engagement_rate : Option ℚ
deriving Repr, DecidableEq

/-- `ContentStatsAPIView.get`: the shared filter chain followed by one
aggregate query of eight `SUM` expressions (`total_contents` is `Sum(1)`,
not `COUNT`). -/
def contentStats (store : Store) (p : QueryParams) (now : Int) :
    StatsResponse :=
  let q := applyFilters store p now
  { total_likes := sqlSumInt q (fun c => c.like_count)
    total_shares := sqlSumInt q (fun c => c.share_count)
    total_comments := sqlSumInt q (fun c => c.comment_count)
    total_views := sqlSumInt q (fun c => c.view_count)
    total_followers := sqlSumInt q (fun c => authorFollowers store c)
    total_contents := sqlSumInt q (fun _ => 1)
    total_engagement :=
      sqlSumInt q (fun c => c.like_count + c.share_count + c.comment_count)
    total_engagement_rate :=
      sqlSumRat q (fun c =>
        ((c.like_count + c.share_count + c.comment_count : Int) : ℚ) /
          (if c.view_count = 0 then 1 else ((c.view_count : Int) : ℚ))) }

/-! ## Write API upsert (views.py 125-214)

The request body is validated by `ContentPostSerializer` before reaching
the code below; the structures mirror the validated payload shape. -/

structure AuthorPayload where
  unique_external_id : String
  unique_name : String
  full_name : String
  url : String
  title : String
deriving Repr, DecidableEq

structure StatsPayload where
  likes : Int
  comments : Int
  shares : Int
  views : Int
deriving Repr, DecidableEq

structure ContentPayload where
  author : AuthorPayload
  unq_external_id : String
  title : String
  thumbnail_view_url : String
  stats : StatsPayload
  hashtags : List String
deriving Repr, DecidableEq

/-- `Author.objects.update_or_create(unique_id=..., defaults={...})`
(views.py 146-154): look the row up by `unique_id` and overwrite the
`defaults` fields, or insert a fresh row (`followers` keeps its model
default 0).  Django's `get` addresses the single row with that
`unique_id` (several would raise `MultipleObjectsReturned`); the update
is written as a map over rows with that `unique_id`, which coincides on
every store the API can build. -/
def upsertAuthor (store : Store) (ap : AuthorPayload) : Author × Store :=
  match store.authors.find? (fun a => a.unique_id == ap.unique_external_id) with
  | some a =>
    let a' : Author :=
      { a with username := ap.unique_name, name := ap.full_name,
               url := ap.url, title := ap.title }
    (a', { store with
            authors := store.authors.map (fun x =>
              if x.unique_id == ap.unique_external_id
              then { x with username := ap.unique_name, name := ap.full_name,
                            url := ap.url, title := ap.title }
              else x) })
  | none =>
    let a : Author :=
      ⟨store.nextAuthorId, ap.full_name, ap.unique_name,
       ap.unique_external_id, ap.url, ap.title, 0⟩
    (a, { store with authors := store.authors ++ [a],
                     nextAuthorId := store.nextAuthorId + 1 })

/-- `Content.objects.update_or_create(unique_id=..., defaults={...})`
(views.py 157-168): the defaults overwrite author linkage, title,
thumbnail and all four stat counters unconditionally; `is_commented`,
`timestamp` and `url` are untouched on update and take their model
defaults on insert. -/
def upsertContent (store : Store) (cp : ContentPayload) (authorId : Nat) :
    Content × Store :=
  match store.contents.find? (fun c => c.unique_id == cp.unq_external_id) with
  | some c =>
    let c' : Content :=
      { c with author_id := authorId, title := cp.title,
               thumbnail_url := cp.thumbnail_view_url,
               like_count := cp.stats.likes,
               comment_count := cp.stats.comments,
               share_count := cp.stats.shares,
               view_count := cp.stats.views }
    (c', { store with
            contents := store.contents.map (fun x =>
              if x.unique_id == cp.unq_external_id
              then { x with author_id := authorId, title := cp.title,
                            thumbnail_url := cp.thumbnail_view_url,
                            like_count := cp.stats.likes,
                            comment_count := cp.stats.comments,
                            share_count := cp.stats.shares,
                            view_count := cp.stats.views }
              else x) })
  | none =>
    let c : Content :=
      { id := store.nextContentId, author_id := authorId,
        unique_id := cp.unq_external_id, url := "", title := cp.title,
        like_count := cp.stats.likes, comment_count := cp.stats.comments,
        view_count := cp.stats.views, share_count := cp.stats.shares,
        thumbnail_url := cp.thumbnail_view_url, timestamp := none,
        is_commented := false }
    (c, { store with contents := store.contents ++ [c],
                     nextContentId := store.nextContentId + 1 })

/-- The `existing_tags` dict loop of views.py 178-182: hashtag names that
are neither an existing `Tag` row nor already collected in this payload,
in first-occurrence order. -/
def newTagNamesAux (tags : List Tag) (created : List String) :
    List String → List String
  | [] => []
  | n :: rest =>
    if tags.any (fun t => t.name == n) || created.contains n then
      newTagNamesAux tags created rest
    else n :: newTagNamesAux tags (n :: created) rest

def newTagNames (tags : List Tag) (hashtags : List String) : List String :=
  newTagNamesAux tags [] hashtags

/-- `Tag.objects.bulk_create(tags_to_create)`: fresh rows get consecutive
primary keys. -/
def mkTags (startId : Nat) : List String → List Tag
  | [] => []
  | n :: rest => ⟨startId, n⟩ :: mkTags (startId + 1) rest

/-- The `existing_tags` dict after tag creation: under the `Tag.name`
unique constraint this is lookup by name over the enlarged table. -/
def tagIdByName (tags : List Tag) (n : String) : Nat :=
  match tags.find? (fun t => t.name == n) with
  | some t => t.id
  | none => 0

def ctPair (ct : ContentTag) : Nat × Nat := (ct.content_id, ct.tag_id)

/-- `ContentTag.objects.bulk_create` under the `(content, tag)` unique
constraint: the single INSERT succeeds only if the batch has no duplicate
pair and no pair already present; otherwise it raises `IntegrityError`
and inserts nothing. -/
def bulkCreateContentTags (existing : List ContentTag)
    (batch : List ContentTag) : Option (List ContentTag) :=
  if (batch.map ctPair).Nodup ∧
      batch.all (fun b => !(existing.any (fun e => ctPair e == ctPair b)))
  then some (existing ++ batch)
  else none

/-- The tag phase of one POSTed item (views.py 170-206).  Note the in-DB
`existing_content_tags` name set is computed once, so a hashtag repeated
inside one payload puts the same pair in the batch twice; the unique
constraint then rejects the whole batch (the new `Tag` rows, created by
the earlier statement, remain).  Returns the store and a success flag. -/
def applyTagPhase (store : Store) (hashtags : List String)
    (contentId : Nat) : Store × Bool :=
  let fresh := newTagNames store.tags hashtags
  let tags' := store.tags ++ mkTags store.nextTagId fresh
  let store2 := { store with tags := tags',
                             nextTagId := store.nextTagId + fresh.length }
  let existingNames :=
    (store2.contentTags.filter (fun ct => ct.content_id == contentId)).map
      (fun ct =>
        match store2.tags.find? (fun t => t.id == ct.tag_id) with
        | some t => t.name
        | none => "")
  let batch :=
    (hashtags.filter (fun n => !(existingNames.contains n))).map
      (fun n => ContentTag.mk contentId (tagIdByName tags' n))
  match bulkCreateContentTags store2.contentTags batch with
  | some cts => ({ store2 with contentTags := cts }, true)
  | none => (store2, false)

/-- One iteration of the POST loop (views.py 139-211): upsert author,
upsert content, then the tag phase.  The flag is false when the
`ContentTag` bulk insert violated the unique constraint (the request
errors, keeping the mutations already made). -/
def postOneItem (store : Store) (cp : ContentPayload) : Store × Bool :=
  let ua := upsertAuthor store cp.author
  let uc := upsertContent ua.2 cp ua.1.id
  applyTagPhase uc.2 cp.hashtags uc.1.id

/-- A sequence of POSTed items (one call with a list, or successive
calls: the handler state is the store either way). -/
def postMany (store : Store) : List ContentPayload → Store
  | [] => store
  | cp :: rest => postMany (postOneItem store cp).1 rest

/-! ## Comment-Post Task (tasks.py 84-112)

`post_final_comment` is a celery task with `bind=True, max_retries=3`.
One invocation POSTs the comment; `raise_for_status` raises
`requests.HTTPError` exactly for a 4xx/5xx status.  `self.retry` raises
celery's `Retry` control-flow exception (consumed by the worker to
schedule the next attempt) while `self.request.retries < max_retries`;
once the budget is exhausted, `retry` called with `exc=e` re-raises `e`
itself — the original `HTTPError` — not `MaxRetriesExceededError`, so
the `except self.MaxRetriesExceededError` clause of tasks.py 107 never
fires and the exception escapes the task to the worker. -/

structure HttpResponse where
  status : Nat
  body : String
deriving Repr, DecidableEq

/-- Result of `requests.post`: a response, or a connection-level
transport failure raised before any response exists. -/
inductive PostResult where
  | response (r : HttpResponse)
  | connectionError
deriving Repr, DecidableEq

inductive Outcome where
  | success
  | retryScheduled (countdown : Nat)
  | retryExhaustedRaised
  | permanentSkip
  | otherFailure
  | unboundLocalRaised
deriving Repr, DecidableEq

structure InvocationResult where
  outcome : Outcome
  sleptSeconds : Nat
  setCommented : Bool
deriving Repr, DecidableEq

def skipPhrase : String := "This content is not available for commenting"

/-- One invocation of `post_final_comment` with `retries` prior retries.
On a connection-level failure the `except` block evaluates
`response.status_code` with `response` never assigned, so the handler
itself raises `UnboundLocalError`.  On a 503 with the retry budget spent,
`time.sleep(30)` still runs and then `self.retry(exc=e, ...)` re-raises
the original `HTTPError` out of the task (celery re-raises `exc` when
`max_retries` is exceeded, so the `except self.MaxRetriesExceededError`
handler never runs and nothing is logged on this path). -/
def postFinalCommentOnce (retries maxRetries : Nat) (res : PostResult) :
    InvocationResult :=
  match res with
  | .connectionError => ⟨.unboundLocalRaised, 0, false⟩
  | .response r =>
    if 400 ≤ r.status ∧ r.status < 600 then
      if r.status = 503 then
        if retries < maxRetries then ⟨.retryScheduled 30, 30, false⟩
        else ⟨.retryExhaustedRaised, 30, false⟩
      else if r.status = 400 ∧ strContains r.body skipPhrase then
        ⟨.permanentSkip, 0, false⟩
      else ⟨.otherFailure, 0, false⟩
    else ⟨.success, 0, decide (r.status = 200)⟩

def isRetryOutcome : Outcome → Bool
  | .retryScheduled _ => true
  | _ => false

/-- The retry chain: invocation `i` (with `retries = i`) consumes
`results i`; a scheduled retry runs the next invocation.  A retry is only
scheduled while `retries < maxRetries`, so `maxRetries + 1 - i` bounds the
remaining invocations. -/
def chainAux (results : Nat → PostResult) (maxRetries : Nat) :
    Nat → Nat → List InvocationResult
  | _, 0 => []
  | i, fuel + 1 =>
    let r := postFinalCommentOnce i maxRetries (results i)
    if isRetryOutcome r.outcome then
      r :: chainAux results maxRetries (i + 1) fuel
    else [r]

def chainTrace (maxRetries : Nat) (results : Nat → PostResult) :
    List InvocationResult :=
  chainAux results maxRetries 0 (maxRetries + 1)

/-- `Content.objects.filter(unique_id=content_id).update(is_commented=True)`
(tasks.py 100). -/
def commentUpdateRow (cid : String) (c : Content) : Content :=
  if c.unique_id == cid then { c with is_commented := true } else c

def applyCommentUpdate (store : Store) (cid : String) : Store :=
  { store with contents := store.contents.map (commentUpdateRow cid) }

/-- The store effect of one invocation: the update statement runs exactly
when the success branch saw status 200. -/
def applyInvocation (r : InvocationResult) (store : Store) (cid : String) :
    Store :=
  if r.setCommented then applyCommentUpdate store cid else store

/-- Exceptions that escape the task body to the worker.  `Retry` is
celery's scheduling mechanism, not a surfaced failure; an ordinary
exception escapes on the unbound `response` dereference and on 503
retry exhaustion, where `self.retry(exc=e)` re-raises the `HTTPError`. -/
def raisesToScheduler : Outcome → Bool
  | .unboundLocalRaised => true
  | .retryExhaustedRaised => true
  | _ => false

/-! ## Ingestion Task (tasks.py 25-53)

`pull_and_store_content` calls
`Content.objects.get_or_create(unique_id=..., title=..., thumbnail_url=...,
author_username=...)`.  Django resolves every keyword against the model's
fields before touching any row. -/

/-- The keywords resolvable on `Content` (models.py 23-41: the concrete
columns, the `author`/`author_id` foreign key, the `contenttag` reverse
relation, and `pk`/`id`). -/
def contentModelKeywords : List String :=
  ["id", "pk", "author", "author_id", "unique_id", "url", "title",
   "like_count", "comment_count", "view_count", "share_count",
   "thumbnail_url", "timestamp", "big_metadata", "secret_value",
   "is_commented", "created_at", "update_at", "contenttag"]

def ingestGetOrCreateKwargs : List String :=
  ["unique_id", "title", "thumbnail_url", "author_username"]

structure SourceItem where
  unq_external_id : String
  title : String
  thumbnail_view_url : String
  author_unique_name : String
deriving Repr, DecidableEq

/-- Storing one pulled item.  The first keyword that fails to resolve
raises `FieldError` before any row is read or written; `author_username`
is not a `Content` keyword, so for the kwargs this task passes the call
always errors with the store untouched (the `none` arm, where Django
would perform the lookup-or-create, is unreachable for these kwargs). -/
def ingestItem (store : Store) (_ : SourceItem) : Store × Option String :=
  match ingestGetOrCreateKwargs.find?
      (fun k => !(contentModelKeywords.contains k)) with
  | some k => (store, some ("FieldError: cannot resolve keyword " ++ k))
  | none => (store, none)

/-- The `for content in content_data["data"]` loop; an exception aborts
the iteration. -/
def ingestPage : Store → List SourceItem → Store × Option String
  | s, [] => (s, none)
  | s, it :: rest =>
    match ingestItem s it with
    | (s', none) => ingestPage s' rest
    | (s', some e) => (s', some e)

/-- The page-following `while True` loop over the successive `data`
arrays the source returns.  `FieldError` is not a
`requests.RequestException`, so it escapes the `except` clause and ends
the task run. -/
def pullAndStoreRun : List (List SourceItem) → Store → Store × Option String
  | [], s => (s, none)
  | pg :: rest, s =>
    match ingestPage s pg with
    | (s', none) => pullAndStoreRun rest s'
    | (s', some e) => (s', some e)

/-! ## Concrete fixtures used by witnesses and counterexamples -/

/-- The spec's worked example: `like_count=10, comment_count=5,
share_count=2, view_count=0`. -/
def exampleContent : Content :=
  ⟨1, 1, "c1", "", "hello", 10, 5, 0, 2, "", none, false⟩

def exampleStore : Store :=
  ⟨[⟨1, "Alice", "alice", "a1", "", "", 7⟩], [exampleContent], [], [], 2, 2, 1⟩

def exampleListing : ListingResponse :=
  ⟨[annotate exampleContent], 1, 1, 1, 10, false, false⟩

/-! ## Claim C1: per-item annotation of the Read API listing -/

/-- C1: every item the Read API listing returns carries
`total_engagement = like_count + comment_count + share_count` and
`engagement_rate = total_engagement / view_count` with a zero
`view_count` treated as 1; the spec's example annotates to
`total_engagement = 17` and `engagement_rate = 17`. -/
theorem claimC1 :
    (∀ (store : Store) (p : QueryParams) (now : Int)
        (resp : ListingResponse) (item : AnnotatedContent),
      contentListing store p now = some resp → item ∈ resp.data →
        item.total_engagement =
          item.content.like_count + item.content.comment_count +
            item.content.share_count ∧
        item.engagement_rate =
          (item.total_engagement : ℚ) /
            (if item.content.view_count = 0 then 1
             else (item.content.view_count : ℚ))) ∧
    (annotate exampleContent).total_engagement = 17 ∧
    (annotate exampleContent).engagement_rate = 17 := by
  refine ⟨?_, by decide, by norm_num [annotate, exampleContent]⟩
  intro store p now resp item hresp hmem
  dsimp only [contentListing] at hresp
  split at hresp
  · exact absurd hresp (by simp)
  · rw [Option.some.injEq] at hresp
    subst hresp
    dsimp only at hmem
    have hmem' := List.mem_of_mem_drop (List.mem_of_mem_take hmem)
    obtain ⟨c, _, rfl⟩ := List.mem_map.mp hmem'
    exact ⟨rfl, rfl⟩

theorem claimC1_witness :
    (annotate exampleContent).total_engagement =
      exampleContent.like_count + exampleContent.comment_count +
        exampleContent.share_count ∧
    (annotate exampleContent).engagement_rate =
      ((annotate exampleContent).total_engagement : ℚ) /
        (if exampleContent.view_count = 0 then 1
         else (exampleContent.view_count : ℚ)) :=
  claimC1.1 exampleStore noParams 0 exampleListing (annotate exampleContent)
    rfl (List.mem_singleton.mpr rfl)

/-! ## Claim C10: aggregate stats over an empty filtered set -/

/-- C10: when no Content row matches the filters, every aggregate the
stats endpoint returns is an SQL `SUM` over an empty set, hence null. -/
theorem claimC10 (store : Store) (p : QueryParams) (now : Int)
    (h : applyFilters store p now = []) :
    contentStats store p now =
      ⟨none, none, none, none, none, none, none, none⟩ := by
  simp only [contentStats, h]
  rfl

theorem claimC10_witness :
    contentStats emptyStore noParams 0 =
      ⟨none, none, none, none, none, none, none, none⟩ :=
  claimC10 emptyStore noParams 0 (by decide)

/-! ## Claim C6: aggregate stats refine the per-item listing values -/

lemma sum_map_one (l : List Content) :
    (l.map (fun _ => (1 : Int))).sum = (l.length : Int) := by
  induction l with
  | nil => simp
  | cons c rest ih => simp [ih]; ring

/-- C6 (amended): whenever at least one Content row matches the filters,
each scalar of the stats endpoint equals the sum, over the filtered set,
of the per-item value the listing computes; on an empty filtered set the
SQL `SUM`s are null instead (see the counterexample and C10). -/
theorem claimC6 (store : Store) (p : QueryParams) (now : Int)
    (h : applyFilters store p now ≠ []) :
    (contentStats store p now).total_likes =
      some (((applyFilters store p now).map (fun c => c.like_count)).sum) ∧
    (contentStats store p now).total_shares =
      some (((applyFilters store p now).map (fun c => c.share_count)).sum) ∧
    (contentStats store p now).total_comments =
      some (((applyFilters store p now).map (fun c => c.comment_count)).sum) ∧
    (contentStats store p now).total_views =
      some (((applyFilters store p now).map (fun c => c.view_count)).sum) ∧
    (contentStats store p now).total_followers =
      some (((applyFilters store p now).map
        (fun c => authorFollowers store c)).sum) ∧
    (contentStats store p now).total_contents =
      some ((applyFilters store p now).length : Int) ∧
    (contentStats store p now).total_engagement =
      some (((applyFilters store p now).map
        (fun c => (annotate c).total_engagement)).sum) ∧
    (contentStats store p now).total_engagement_rate =
      some (((applyFilters store p now).map
        (fun c => (annotate c).engagement_rate)).sum) := by
  obtain ⟨c0, rest, hq⟩ := List.exists_cons_of_ne_nil h
  have heng : (fun c : Content =>
      c.like_count + c.share_count + c.comment_count) =
      fun c => (annotate c).total_engagement := by
    funext c
    simp only [annotate]
    ring
  have hrate : (fun c : Content =>
      ((c.like_count + c.share_count + c.comment_count : Int) : ℚ) /
        (if c.view_count = 0 then 1 else ((c.view_count : Int) : ℚ))) =
      fun c => (annotate c).engagement_rate := by
    funext c
    simp only [annotate]
    congr 1
    push_cast
    ring
  refine ⟨?_, ?_, ?_, ?_, ?_, ?_, ?_, ?_⟩ <;>
    simp only [contentStats, hq, sqlSumInt, sqlSumRat, Option.some.injEq]
  · exact sum_map_one _
  · rw [heng]
  · rw [hrate]

/-- C6 counterexample: with no matching rows the stats are null, not the
(zero) sums of per-item values — `total_contents` is not the row count. -/
theorem claimC6_counterexample :
    (contentStats emptyStore noParams 0).total_contents ≠
      some ((applyFilters emptyStore noParams 0).length : Int) := by
  decide

theorem claimC6_witness :
    (contentStats exampleStore noParams 0).total_likes =
      some (((applyFilters exampleStore noParams 0).map
        (fun c => c.like_count)).sum) ∧
    (contentStats exampleStore noParams 0).total_engagement_rate =
      some (((applyFilters exampleStore noParams 0).map
        (fun c => (annotate c).engagement_rate)).sum) :=
  ⟨(claimC6 exampleStore noParams 0 (by decide)).1,
   (claimC6 exampleStore noParams 0 (by decide)).2.2.2.2.2.2.2⟩

/-! ## Claim C7: pagination defaults, ceiling and fallback -/

lemma listing_data_length_le (store : Store) (p : QueryParams) (now : Int)
    (resp : ListingResponse)
    (h : contentListing store p now = some resp) :
    resp.data.length ≤ (parsePagination p.page p.items_per_page).2.toNat := by
  dsimp only [contentListing] at h
  split at h
  · exact absurd h (by simp)
  · rw [Option.some.injEq] at h
    subst h
    simp

lemma parsePagination_some_some (pageP itemsP : Option String)
    (pg ipp : Int) (h1 : pyInt (pageP.getD "1") = some pg)
    (h2 : pyInt (itemsP.getD "10") = some ipp) :
    parsePagination pageP itemsP = (pg, min ipp 100) := by
  unfold parsePagination
  rw [h1, h2]

lemma parsePagination_fst_none (pageP itemsP : Option String)
    (h1 : pyInt (pageP.getD "1") = none) :
    parsePagination pageP itemsP = (1, 10) := by
  unfold parsePagination
  rw [h1]

lemma parsePagination_snd_none (pageP itemsP : Option String)
    (h2 : pyInt (itemsP.getD "10") = none) :
    parsePagination pageP itemsP = (1, 10) := by
  unfold parsePagination
  rcases h1 : pyInt (pageP.getD "1") with _ | pg <;> rw [h2]

lemma filterTimeframe_invalid (now : Int) (s : String)
    (hs : pyInt s = none) (l : List Content) :
    filterTimeframe now (some s) l = l := by
  simp only [filterTimeframe, hs]
  split <;> rfl

/-- C7: `page` defaults to 1 and `items_per_page` to 10; the effective
page size never exceeds the hard ceiling 100 (in particular
`items_per_page=1000` returns at most 100 items); non-numeric `page` or
`items_per_page` fall back to the defaults and a non-numeric `timeframe`
is ignored, with no client error. -/
theorem claimC7 :
    parsePagination none none = (1, 10) ∧
    (∀ pageP itemsP, (parsePagination pageP itemsP).2 ≤ 100) ∧
    (∀ (store : Store) (p : QueryParams) (now : Int)
        (resp : ListingResponse),
      p.items_per_page = some "1000" →
      contentListing store p now = some resp → resp.data.length ≤ 100) ∧
    (∀ (s : String) (t : Option String), pyInt s = none →
      parsePagination (some s) t = (1, 10) ∧
      parsePagination t (some s) = (1, 10)) ∧
    (∀ (store : Store) (p : QueryParams) (now : Int) (s : String),
      p.timeframe = some s → pyInt s = none →
      applyFilters store p now =
        applyFilters store { p with timeframe := none } now) := by
  refine ⟨by decide, ?_, ?_, ?_, ?_⟩
  · intro pageP itemsP
    rcases h1 : pyInt (pageP.getD "1") with _ | pg
    · rw [parsePagination_fst_none pageP itemsP h1]
      norm_num
    · rcases h2 : pyInt (itemsP.getD "10") with _ | ipp
      · rw [parsePagination_snd_none pageP itemsP h2]
        norm_num
      · rw [parsePagination_some_some pageP itemsP pg ipp h1 h2]
        exact min_le_right _ _
  · intro store p now resp hip h
    have hle := listing_data_length_le store p now resp h
    rw [hip] at hle
    have h1000 : pyInt ((some "1000").getD "10") = some 1000 := by decide
    refine le_trans hle ?_
    rcases h1 : pyInt (p.page.getD "1") with _ | pg
    · rw [parsePagination_fst_none _ _ h1]
      norm_num
    · rw [parsePagination_some_some _ _ pg 1000 h1 h1000]
      norm_num
  · intro s t hs
    exact ⟨parsePagination_fst_none (some s) t hs,
      parsePagination_snd_none t (some s) hs⟩
  · intro store p now s hp hs
    simp only [applyFilters, hp]
    rw [filterTimeframe_invalid now s hs]
    rfl

def params1000 : QueryParams := { noParams with items_per_page := some "1000" }

def exampleListing1000 : ListingResponse :=
  ⟨[annotate exampleContent], 1, 1, 1, 100, false, false⟩

def paramsBadTf : QueryParams := { noParams with timeframe := some "soon" }

theorem claimC7_witness :
    exampleListing1000.data.length ≤ 100 ∧
    parsePagination (some "abc") none = (1, 10) ∧
    parsePagination none (some "abc") = (1, 10) ∧
    applyFilters exampleStore paramsBadTf 0 =
      applyFilters exampleStore { paramsBadTf with timeframe := none } 0 :=
  ⟨claimC7.2.2.1 exampleStore params1000 0 exampleListing1000 rfl rfl,
   (claimC7.2.2.2.1 "abc" none (by decide)).1,
   (claimC7.2.2.2.1 "abc" none (by decide)).2,
   claimC7.2.2.2.2 exampleStore paramsBadTf 0 "soon" rfl (by decide)⟩

/-! ## Claims C2, C5, C9: the Comment-Post Task -/

lemma once_503_scheduled (i m : Nat) (b : String) (him : i < m) :
    postFinalCommentOnce i m (.response ⟨503, b⟩) =
      ⟨.retryScheduled 30, 30, false⟩ := by
  simp [postFinalCommentOnce, him]

lemma once_503_exhausted (i m : Nat) (b : String) (him : ¬ i < m) :
    postFinalCommentOnce i m (.response ⟨503, b⟩) =
      ⟨.retryExhaustedRaised, 30, false⟩ := by
  simp [postFinalCommentOnce, him]

lemma setCommented_imp_success (i m : Nat) (res : PostResult)
    (h : (postFinalCommentOnce i m res).setCommented = true) :
    ∃ b, res = .response ⟨200, b⟩ ∧
      (postFinalCommentOnce i m res).outcome = .success := by
  match res with
  | .connectionError => simp [postFinalCommentOnce] at h
  | .response r =>
    dsimp only [postFinalCommentOnce] at h ⊢
    split at h
    · split at h
      · split at h <;> simp_all
      · split at h <;> simp_all
    · rename_i hraise
      simp only [decide_eq_true_eq] at h
      rw [if_neg hraise]
      exact ⟨r.body, by rw [← h], rfl⟩

/-- C2: persistent 503s give a 30-second sleep and a retry scheduled with
countdown 30 on the first invocation and on each of the 3 retries' budget;
the fourth invocation sleeps and then ends the chain as terminal failure
(no further retry is scheduled; the original `HTTPError` is re-raised by
`retry(exc=e)`), with no store mutation anywhere in the chain; a 400
whose body contains the skip phrase is terminal on the first invocation
with zero retries and no store mutation. -/
theorem claimC2 :
    (∀ (results : Nat → PostResult) (bodies : Nat → String),
      (∀ i, results i = .response ⟨503, bodies i⟩) →
      chainTrace 3 results =
        [⟨.retryScheduled 30, 30, false⟩, ⟨.retryScheduled 30, 30, false⟩,
         ⟨.retryScheduled 30, 30, false⟩,
         ⟨.retryExhaustedRaised, 30, false⟩] ∧
      ∀ (store : Store) (cid : String),
        (chainTrace 3 results).foldl
          (fun s r => applyInvocation r s cid) store = store) ∧
    (∀ (results : Nat → PostResult) (body : String),
      results 0 = .response ⟨400, body⟩ →
      strContains body skipPhrase = true →
      chainTrace 3 results = [⟨.permanentSkip, 0, false⟩] ∧
      ∀ (store : Store) (cid : String),
        (chainTrace 3 results).foldl
          (fun s r => applyInvocation r s cid) store = store) := by
  constructor
  · intro results bodies h
    have htrace : chainTrace 3 results =
        [⟨.retryScheduled 30, 30, false⟩, ⟨.retryScheduled 30, 30, false⟩,
         ⟨.retryScheduled 30, 30, false⟩,
         ⟨.retryExhaustedRaised, 30, false⟩] := by
      simp only [chainTrace, chainAux, h 0, h 1, h 2, h 3,
        once_503_scheduled 0 3 _ (by norm_num),
        once_503_scheduled 1 3 _ (by norm_num),
        once_503_scheduled 2 3 _ (by norm_num),
        once_503_exhausted 3 3 _ (by norm_num), isRetryOutcome]
      simp
    refine ⟨htrace, ?_⟩
    intro store cid
    rw [htrace]
    simp [applyInvocation]
  · intro results body h0 hbody
    have honce : postFinalCommentOnce 0 3 (results 0) =
        ⟨.permanentSkip, 0, false⟩ := by
      rw [h0]
      simp [postFinalCommentOnce, hbody]
    have htrace : chainTrace 3 results = [⟨.permanentSkip, 0, false⟩] := by
      simp only [chainTrace, chainAux, honce, isRetryOutcome]
      simp
    refine ⟨htrace, ?_⟩
    intro store cid
    rw [htrace]
    simp [applyInvocation]

theorem claimC2_witness :
    chainTrace 3 (fun _ => .response ⟨503, "unavailable"⟩) =
      [⟨.retryScheduled 30, 30, false⟩, ⟨.retryScheduled 30, 30, false⟩,
       ⟨.retryScheduled 30, 30, false⟩,
       ⟨.retryExhaustedRaised, 30, false⟩] ∧
    chainTrace 3 (fun _ => .response ⟨400, skipPhrase⟩) =
      [⟨.permanentSkip, 0, false⟩] :=
  ⟨(claimC2.1 (fun _ => .response ⟨503, "unavailable"⟩)
      (fun _ => "unavailable") (fun _ => rfl)).1,
   (claimC2.2 (fun _ => .response ⟨400, skipPhrase⟩) skipPhrase rfl
      (by decide)).1⟩

/-- C5 counterexample: a 201 response is 2xx and a success for
`raise_for_status`, yet the code guards the update with
`status_code == 200`, so `is_commented` is not set. -/
theorem claimC5_counterexample :
    (200 ≤ 201 ∧ 201 < 300) ∧
    (postFinalCommentOnce 0 3 (.response ⟨201, "created"⟩)).outcome =
      .success ∧
    (postFinalCommentOnce 0 3 (.response ⟨201, "created"⟩)).setCommented =
      false ∧
    applyInvocation (postFinalCommentOnce 0 3 (.response ⟨201, "created"⟩))
      exampleStore "c1" = exampleStore ∧
    ((exampleStore.contents.find? (fun c => c.unique_id == "c1")).map
      (fun c => c.is_commented)) = some false := by
  decide

/-- C5 (amended): a response with status exactly 200 is the one success
case that sets `is_commented`; it sets the flag on every row matching the
content id, a set row is never unset by the update, at most one
invocation in a retry chain performs the update, and no non-200 result
mutates the store. -/
theorem claimC5 :
    (∀ (retries maxR : Nat) (body : String),
      postFinalCommentOnce retries maxR (.response ⟨200, body⟩) =
        ⟨.success, 0, true⟩) ∧
    (∀ (cid : String) (c : Content),
      (commentUpdateRow cid c).is_commented =
        (c.is_commented || c.unique_id == cid)) ∧
    (∀ (store : Store) (cid : String) (c : Content),
      c ∈ (applyCommentUpdate store cid).contents →
      c.unique_id = cid → c.is_commented = true) ∧
    (∀ (maxR : Nat) (results : Nat → PostResult),
      ((chainTrace maxR results).filter
        (fun r => r.setCommented)).length ≤ 1) ∧
    (∀ (retries maxR : Nat) (res : PostResult),
      (postFinalCommentOnce retries maxR res).setCommented = true →
      ∃ b, res = .response ⟨200, b⟩) := by
  refine ⟨?_, ?_, ?_, ?_, ?_⟩
  · intro retries maxR body
    simp [postFinalCommentOnce]
  · intro cid c
    by_cases h : c.unique_id == cid <;> simp [commentUpdateRow, h]
  · intro store cid c hc hunq
    obtain ⟨x, _, rfl⟩ := List.mem_map.mp hc
    by_cases h : x.unique_id == cid
    · simp [commentUpdateRow, h]
    · rw [commentUpdateRow, if_neg (by simpa using h)] at hunq ⊢
      exact absurd hunq (by simpa using h)
  · intro maxR results
    have aux : ∀ (fuel i : Nat),
        ((chainAux results maxR i fuel).filter
          (fun r => r.setCommented)).length ≤ 1 := by
      intro fuel
      induction fuel with
      | zero => intro i; simp [chainAux]
      | succ n ih =>
        intro i
        dsimp only [chainAux]
        by_cases hb :
            isRetryOutcome (postFinalCommentOnce i maxR (results i)).outcome
        · rw [if_pos hb]
          have hset : (postFinalCommentOnce i maxR (results i)).setCommented
              = false := by
            by_contra hbc
            obtain ⟨b, _, hsucc⟩ := setCommented_imp_success i maxR
              (results i) (by simpa using hbc)
            rw [hsucc] at hb
            simp [isRetryOutcome] at hb
          simp only [List.filter_cons, hset, if_neg]
          simpa using ih (i + 1)
        · rw [if_neg hb]
          exact le_trans (List.length_filter_le _ _) (by simp)
    simp only [chainTrace]
    exact aux (maxR + 1) 0
  · intro retries maxR res h
    obtain ⟨b, hres, _⟩ := setCommented_imp_success retries maxR res h
    exact ⟨b, hres⟩

theorem claimC5_witness :
    postFinalCommentOnce 0 3 (.response ⟨200, "posted"⟩) =
      ⟨.success, 0, true⟩ ∧
    ({ exampleContent with is_commented := true } : Content).is_commented =
      true :=
  ⟨claimC5.1 0 3 "posted",
   claimC5.2.2.1 exampleStore "c1" { exampleContent with is_commented := true }
     (by decide) (by decide)⟩

/-- C9 counterexample: two failure classes re-raise out of the task.  On
a connection-level transport failure there is no response object, the
`except` block dereferences the unassigned `response` local, and the
resulting `UnboundLocalError` escapes to the scheduler; and on a 503
with the retry budget spent (retries = max_retries = 3),
`self.retry(exc=e)` re-raises the original `HTTPError`, so that
invocation also escapes instead of being logged. -/
theorem claimC9_counterexample :
    raisesToScheduler
      (postFinalCommentOnce 0 3 .connectionError).outcome = true ∧
    raisesToScheduler
      (postFinalCommentOnce 3 3 (.response ⟨503, "busy"⟩)).outcome =
      true := by
  decide

/-- C9 (amended): the 400 permanent-skip and every other response-borne
failure class other than 503 finish by logging with no exception
re-raised to the scheduler (a scheduled `Retry` is worker control flow,
not a surfaced failure, and a within-budget 503 only schedules one);
but a 503 once the retry budget is exhausted re-raises the original
`HTTPError` out of the task — celery's `retry(exc=e)` re-raises `exc`
when `max_retries` is exceeded, so the `except
self.MaxRetriesExceededError` handler never fires — and a
connection-level transport error with no response raises an
unbound-local error out of the handler. -/
theorem claimC9 :
    (∀ (retries maxR : Nat) (r : HttpResponse),
      400 ≤ r.status → r.status < 600 → r.status ≠ 503 →
      raisesToScheduler
        (postFinalCommentOnce retries maxR (.response r)).outcome = false) ∧
    (∀ (retries maxR : Nat) (b : String), retries < maxR →
      (postFinalCommentOnce retries maxR (.response ⟨503, b⟩)).outcome =
        .retryScheduled 30 ∧
      raisesToScheduler
        (postFinalCommentOnce retries maxR
          (.response ⟨503, b⟩)).outcome = false) ∧
    (∀ (retries maxR : Nat) (b : String), ¬ retries < maxR →
      (postFinalCommentOnce retries maxR (.response ⟨503, b⟩)).outcome =
        .retryExhaustedRaised ∧
      raisesToScheduler
        (postFinalCommentOnce retries maxR
          (.response ⟨503, b⟩)).outcome = true) ∧
    (∀ (retries maxR : Nat),
      raisesToScheduler
        (postFinalCommentOnce retries maxR .connectionError).outcome =
        true) := by
  refine ⟨?_, ?_, ?_, ?_⟩
  · intro retries maxR r h4 h6 hn503
    dsimp only [postFinalCommentOnce]
    rw [if_pos ⟨h4, h6⟩, if_neg hn503]
    split <;> rfl
  · intro retries maxR b him
    rw [once_503_scheduled retries maxR b him]
    exact ⟨rfl, rfl⟩
  · intro retries maxR b him
    rw [once_503_exhausted retries maxR b him]
    exact ⟨rfl, rfl⟩
  · intro retries maxR
    rfl

theorem claimC9_witness :
    raisesToScheduler
      (postFinalCommentOnce 0 3
        (.response ⟨400, skipPhrase⟩)).outcome = false ∧
    raisesToScheduler
      (postFinalCommentOnce 2 3 (.response ⟨503, "busy"⟩)).outcome =
      false ∧
    (postFinalCommentOnce 3 3 (.response ⟨503, "busy"⟩)).outcome =
      .retryExhaustedRaised :=
  ⟨claimC9.1 0 3 ⟨400, skipPhrase⟩ (by norm_num) (by norm_num)
      (by norm_num),
   (claimC9.2.1 2 3 "busy" (by norm_num)).2,
   (claimC9.2.2.1 3 3 "busy" (by norm_num)).1⟩

/-! ## Claim C4: the Ingestion Task crashes on its own kwargs -/

/-- C4 (code defect): every run of `pull_and_store_content` that sees at
least one item aborts with `FieldError` — `author_username` is not a
field of `Content` — so nothing is ever upserted, and no run mutates the
store at all. -/
theorem claimC4 :
    (∀ (store : Store) (item : SourceItem) (rest : List SourceItem)
        (later : List (List SourceItem)),
      pullAndStoreRun ((item :: rest) :: later) store =
        (store, some "FieldError: cannot resolve keyword author_username")) ∧
    (∀ (pages : List (List SourceItem)) (store : Store),
      (pullAndStoreRun pages store).1 = store) := by
  constructor
  · intro store item rest later
    rfl
  · intro pages
    induction pages with
    | nil => intro store; rfl
    | cons pg rest ih =>
      intro store
      cases pg with
      | nil => exact ih store
      | cons it its => rfl

/-! ## Claim C3: Write API upsert overwrites stats and author linkage -/

lemma applyTagPhase_contents (s : Store) (hs : List String) (cid : Nat) :
    ((applyTagPhase s hs cid).1).contents = s.contents := by
  dsimp only [applyTagPhase]
  split <;> rfl

lemma applyTagPhase_authors (s : Store) (hs : List String) (cid : Nat) :
    ((applyTagPhase s hs cid).1).authors = s.authors := by
  dsimp only [applyTagPhase]
  split <;> rfl

lemma upsertContent_authors (s : Store) (cp : ContentPayload) (aid : Nat) :
    ((upsertContent s cp aid).2).authors = s.authors := by
  unfold upsertContent
  cases s.contents.find? (fun c => c.unique_id == cp.unq_external_id) <;> rfl

lemma upsertAuthor_mem (s : Store) (ap : AuthorPayload) :
    (upsertAuthor s ap).1 ∈ ((upsertAuthor s ap).2).authors ∧
    ((upsertAuthor s ap).1).unique_id = ap.unique_external_id := by
  unfold upsertAuthor
  cases hf : s.authors.find?
      (fun a => a.unique_id == ap.unique_external_id) with
  | none => exact ⟨by simp, rfl⟩
  | some a =>
    have ha := List.find?_some hf
    have hmem := List.mem_of_find?_eq_some hf
    constructor
    · exact List.mem_map.mpr ⟨a, hmem, by rw [if_pos ha]⟩
    · simpa using ha

lemma upsertContent_row (s : Store) (cp : ContentPayload) (aid : Nat) :
    ∀ c ∈ ((upsertContent s cp aid).2).contents,
      c.unique_id = cp.unq_external_id →
        c.like_count = cp.stats.likes ∧
        c.comment_count = cp.stats.comments ∧
        c.share_count = cp.stats.shares ∧
        c.view_count = cp.stats.views ∧
        c.author_id = aid := by
  unfold upsertContent
  cases hf : s.contents.find?
      (fun c => c.unique_id == cp.unq_external_id) with
  | none =>
    intro c hc hunq
    rcases List.mem_append.mp hc with hold | hnew
    · have := List.find?_eq_none.mp hf c hold
      exact absurd hunq (by simpa using this)
    · rw [List.mem_singleton.mp hnew]
      exact ⟨rfl, rfl, rfl, rfl, rfl⟩
  | some c0 =>
    intro c hc hunq
    obtain ⟨x, _, rfl⟩ := List.mem_map.mp hc
    by_cases hxu : x.unique_id == cp.unq_external_id
    · rw [if_pos hxu]
      exact ⟨rfl, rfl, rfl, rfl, rfl⟩
    · rw [if_neg hxu] at hunq
      exact absurd hunq (by simpa using hxu)

lemma upsertContent_exists (s : Store) (cp : ContentPayload) (aid : Nat) :
    ∃ c ∈ ((upsertContent s cp aid).2).contents,
      c.unique_id = cp.unq_external_id := by
  unfold upsertContent
  cases hf : s.contents.find?
      (fun c => c.unique_id == cp.unq_external_id) with
  | none =>
    exact ⟨_, List.mem_append.mpr (Or.inr (List.mem_singleton.mpr rfl)), rfl⟩
  | some c0 =>
    have hc0 := List.find?_some hf
    refine ⟨_, List.mem_map.mpr ⟨c0, List.mem_of_find?_eq_some hf,
      by rw [if_pos hc0]⟩, ?_⟩
    simpa using hc0

/-- C3: after two POSTs carrying the same `unq_external_id`, every
matching Content row holds the second POST's four counters and points at
the author row upserted from the second POST's author payload — the
second upsert overwrote the first unconditionally — and such a row
exists. -/
theorem claimC3 (store : Store) (p1 p2 : ContentPayload)
    (_hsame : p1.unq_external_id = p2.unq_external_id) :
    (∀ c ∈ ((postOneItem (postOneItem store p1).1 p2).1).contents,
      c.unique_id = p2.unq_external_id →
        c.like_count = p2.stats.likes ∧
        c.comment_count = p2.stats.comments ∧
        c.share_count = p2.stats.shares ∧
        c.view_count = p2.stats.views ∧
        ∃ a ∈ ((postOneItem (postOneItem store p1).1 p2).1).authors,
          a.id = c.author_id ∧
          a.unique_id = p2.author.unique_external_id) ∧
    ∃ c ∈ ((postOneItem (postOneItem store p1).1 p2).1).contents,
      c.unique_id = p2.unq_external_id := by
  set s1 := (postOneItem store p1).1 with hs1
  have hcontents : ((postOneItem s1 p2).1).contents =
      ((upsertContent ((upsertAuthor s1 p2.author).2) p2
        (((upsertAuthor s1 p2.author).1).id)).2).contents := by
    dsimp only [postOneItem]
    exact applyTagPhase_contents _ _ _
  have hauthors : ((postOneItem s1 p2).1).authors =
      ((upsertAuthor s1 p2.author).2).authors := by
    dsimp only [postOneItem]
    rw [applyTagPhase_authors, upsertContent_authors]
  constructor
  · intro c hc hunq
    rw [hcontents] at hc
    obtain ⟨hlike, hcom, hshare, hview, haid⟩ :=
      upsertContent_row _ p2 _ c hc hunq
    obtain ⟨hamem, hauid⟩ := upsertAuthor_mem s1 p2.author
    exact ⟨hlike, hcom, hshare, hview,
      (upsertAuthor s1 p2.author).1, by rw [hauthors]; exact hamem,
      by rw [haid], hauid⟩
  · obtain ⟨c, hc, hcu⟩ := upsertContent_exists _ p2 _
    exact ⟨c, by rw [hcontents]; exact hc, hcu⟩

def payloadA : ContentPayload :=
  ⟨⟨"a1", "alice", "Alice", "", ""⟩, "c9", "first", "", ⟨1, 2, 3, 4⟩, []⟩

def payloadB : ContentPayload :=
  ⟨⟨"a1", "alice", "Alice", "", ""⟩, "c9", "second", "", ⟨100, 5, 6, 7⟩, []⟩

/-- The single Content row after POSTing `payloadA` then `payloadB`. -/
def rowAfterB : Content :=
  ⟨1, 1, "c9", "", "second", 100, 5, 7, 6, "", none, false⟩

theorem claimC3_witness :
    rowAfterB.like_count = payloadB.stats.likes ∧
    rowAfterB.comment_count = payloadB.stats.comments ∧
    rowAfterB.share_count = payloadB.stats.shares ∧
    rowAfterB.view_count = payloadB.stats.views := by
  have h := (claimC3 emptyStore payloadA payloadB rfl).1 rowAfterB
    (by decide) (by decide)
  exact ⟨h.1, h.2.1, h.2.2.1, h.2.2.2.1⟩

/-! ## Claim C8: Tag and ContentTag uniqueness -/

/-- Invariant enforced by `Tag.name`'s unique constraint. -/
abbrev TagNamesNodup (s : Store) : Prop :=
  (s.tags.map (fun t => t.name)).Nodup

/-- Invariant enforced by the `(content, tag)` unique constraint. -/
abbrev CtPairsNodup (s : Store) : Prop :=
  (s.contentTags.map ctPair).Nodup

lemma mem_newTagNamesAux (tags : List Tag) :
    ∀ (l created : List String) (n : String),
      n ∈ newTagNamesAux tags created l →
      n ∈ l ∧ tags.any (fun t => t.name == n) = false ∧
        created.contains n = false := by
  intro l
  induction l with
  | nil =>
    intro created n h
    simp [newTagNamesAux] at h
  | cons m rest ih =>
    intro created n h
    dsimp only [newTagNamesAux] at h
    by_cases hcond : (tags.any (fun t => t.name == m) ||
        created.contains m) = true
    · rw [if_pos hcond] at h
      obtain ⟨h1, h2, h3⟩ := ih created n h
      exact ⟨List.mem_cons_of_mem _ h1, h2, h3⟩
    · rw [if_neg hcond] at h
      simp only [Bool.or_eq_true, not_or, Bool.not_eq_true] at hcond
      rcases List.mem_cons.mp h with rfl | h'
      · exact ⟨List.mem_cons_self _ _, hcond.1, hcond.2⟩
      · obtain ⟨h1, h2, h3⟩ := ih (m :: created) n h'
        refine ⟨List.mem_cons_of_mem _ h1, h2, ?_⟩
        simp only [List.contains_cons, Bool.or_eq_false_iff] at h3
        exact h3.2

lemma nodup_newTagNamesAux (tags : List Tag) :
    ∀ (l created : List String), (newTagNamesAux tags created l).Nodup := by
  intro l
  induction l with
  | nil => intro created; simp [newTagNamesAux]
  | cons m rest ih =>
    intro created
    dsimp only [newTagNamesAux]
    by_cases hcond : (tags.any (fun t => t.name == m) ||
        created.contains m) = true
    · rw [if_pos hcond]
      exact ih created
    · rw [if_neg hcond]
      refine List.nodup_cons.mpr ⟨?_, ih (m :: created)⟩
      intro hmem
      have h3 := (mem_newTagNamesAux tags rest (m :: created) m hmem).2.2
      simp [List.contains_cons] at h3

lemma covered_newTagNamesAux (tags : List Tag) :
    ∀ (l created : List String) (n : String), n ∈ l →
      tags.any (fun t => t.name == n) = false →
      created.contains n = true ∨ n ∈ newTagNamesAux tags created l := by
  intro l
  induction l with
  | nil =>
    intro created n h
    exact absurd h (List.not_mem_nil n)
  | cons m rest ih =>
    intro created n hmem hany
    dsimp only [newTagNamesAux]
    by_cases hcond : (tags.any (fun t => t.name == m) ||
        created.contains m) = true
    · rw [if_pos hcond]
      rcases List.mem_cons.mp hmem with rfl | h'
      · rcases Bool.or_eq_true_iff.mp hcond with h | h
        · rw [hany] at h
          exact absurd h (by simp)
        · exact Or.inl h
      · exact ih created n h' hany
    · rw [if_neg hcond]
      rcases List.mem_cons.mp hmem with rfl | h'
      · exact Or.inr (List.mem_cons_self _ _)
      · rcases ih (m :: created) n h' hany with hc | hm
        · by_cases hnm : n = m
          · exact Or.inr (hnm ▸ List.mem_cons_self _ _)
          · left
            simpa [List.contains_cons, hnm] using hc
        · exact Or.inr (List.mem_cons_of_mem _ hm)

lemma map_name_mkTags : ∀ (start : Nat) (l : List String),
    (mkTags start l).map (fun t => t.name) = l := by
  intro start l
  induction l generalizing start with
  | nil => rfl
  | cons n rest ih => simp [mkTags, ih]

lemma countP_name_eq_one :
    ∀ (l : List Tag) (n : String),
      (l.map (fun t => t.name)).Nodup → n ∈ l.map (fun t => t.name) →
      l.countP (fun t => t.name == n) = 1 := by
  intro l
  induction l with
  | nil =>
    intro n _ h
    simp at h
  | cons t rest ih =>
    intro n hnd hmem
    rw [List.map_cons, List.nodup_cons] at hnd
    obtain ⟨hnotin, hnd'⟩ := hnd
    rw [List.countP_cons]
    by_cases heq : t.name = n
    · have h0 : rest.countP (fun t => t.name == n) = 0 := by
        rw [List.countP_eq_zero]
        intro x hx
        simp only [beq_iff_eq]
        intro hxn
        exact hnotin (heq ▸ hxn ▸ List.mem_map_of_mem _ hx)
      rw [h0, if_pos (by simp [heq])]
    · have hmem' : n ∈ rest.map (fun t => t.name) := by
        rcases List.mem_cons.mp hmem with h | h
        · exact absurd h.symm heq
        · exact h
      rw [if_neg (by simp [heq]), ih n hnd' hmem']

lemma applyTagPhase_tags (s : Store) (hs : List String) (cid : Nat) :
    ((applyTagPhase s hs cid).1).tags =
      s.tags ++ mkTags s.nextTagId (newTagNames s.tags hs) := by
  dsimp only [applyTagPhase]
  split <;> rfl

lemma applyTagPhase_inv (s : Store) (hs : List String) (cid : Nat)
    (h1 : TagNamesNodup s) (h2 : CtPairsNodup s) :
    TagNamesNodup ((applyTagPhase s hs cid).1) ∧
    CtPairsNodup ((applyTagPhase s hs cid).1) ∧
    (∀ n ∈ hs, ((applyTagPhase s hs cid).1).tags.countP
      (fun t => t.name == n) = 1) := by
  have hnames : (((applyTagPhase s hs cid).1).tags.map (fun t => t.name)) =
      s.tags.map (fun t => t.name) ++ newTagNames s.tags hs := by
    rw [applyTagPhase_tags, List.map_append, map_name_mkTags]
  have hnodup : TagNamesNodup ((applyTagPhase s hs cid).1) := by
    rw [TagNamesNodup, hnames, List.nodup_append]
    refine ⟨h1, nodup_newTagNamesAux s.tags hs [], ?_⟩
    intro a haold hanew
    have hany := (mem_newTagNamesAux s.tags hs [] a hanew).2.1
    obtain ⟨t, ht, rfl⟩ := List.mem_map.mp haold
    have : s.tags.any (fun x => x.name == t.name) = true :=
      List.any_eq_true.mpr ⟨t, ht, by simp⟩
    rw [hany] at this
    exact absurd this (by simp)
  refine ⟨hnodup, ?_, ?_⟩
  · dsimp only [applyTagPhase]
    split
    · rename_i cts heq
      dsimp only [bulkCreateContentTags] at heq
      split at heq
      · rename_i hcond
        rw [Option.some.injEq] at heq
        subst heq
        rw [CtPairsNodup, List.map_append, List.nodup_append]
        refine ⟨h2, hcond.1, ?_⟩
        intro a haold hanew
        obtain ⟨e, he, rfl⟩ := List.mem_map.mp haold
        obtain ⟨b, hb, hpair⟩ := List.mem_map.mp hanew
        have hall := List.all_eq_true.mp hcond.2 b hb
        simp only [Bool.not_eq_true', List.any_eq_false] at hall
        have := hall e he
        rw [hpair] at this
        simp at this
      · exact absurd heq (by simp)
    · exact h2
  · intro n hn
    have hmemname : n ∈ ((applyTagPhase s hs cid).1).tags.map
        (fun t => t.name) := by
      rw [hnames]
      rcases hany : s.tags.any (fun t => t.name == n) with _ | _
      · rcases covered_newTagNamesAux s.tags hs [] n hn hany with hc | hm
        · exact absurd hc (by simp)
        · exact List.mem_append.mpr (Or.inr hm)
      · obtain ⟨t, ht, htn⟩ := List.any_eq_true.mp hany
        refine List.mem_append.mpr (Or.inl ?_)
        exact (beq_iff_eq.mp htn) ▸ List.mem_map_of_mem _ ht
    exact countP_name_eq_one _ n hnodup hmemname

lemma upsertAuthor_tags_cts (s : Store) (ap : AuthorPayload) :
    ((upsertAuthor s ap).2).tags = s.tags ∧
    ((upsertAuthor s ap).2).contentTags = s.contentTags ∧
    ((upsertAuthor s ap).2).nextTagId = s.nextTagId := by
  unfold upsertAuthor
  cases s.authors.find? (fun a => a.unique_id == ap.unique_external_id) <;>
    exact ⟨rfl, rfl, rfl⟩

lemma upsertContent_tags_cts (s : Store) (cp : ContentPayload) (aid : Nat) :
    ((upsertContent s cp aid).2).tags = s.tags ∧
    ((upsertContent s cp aid).2).contentTags = s.contentTags ∧
    ((upsertContent s cp aid).2).nextTagId = s.nextTagId := by
  unfold upsertContent
  cases s.contents.find? (fun c => c.unique_id == cp.unq_external_id) <;>
    exact ⟨rfl, rfl, rfl⟩

lemma postOneItem_inv (s : Store) (cp : ContentPayload)
    (h1 : TagNamesNodup s) (h2 : CtPairsNodup s) :
    TagNamesNodup ((postOneItem s cp).1) ∧
    CtPairsNodup ((postOneItem s cp).1) ∧
    (∀ n ∈ cp.hashtags, ((postOneItem s cp).1).tags.countP
      (fun t => t.name == n) = 1) := by
  dsimp only [postOneItem]
  obtain ⟨ht1, hc1, _⟩ := upsertAuthor_tags_cts s cp.author
  obtain ⟨ht2, hc2, _⟩ :=
    upsertContent_tags_cts ((upsertAuthor s cp.author).2) cp
      ((upsertAuthor s cp.author).1).id
  exact applyTagPhase_inv _ cp.hashtags _
    (by rw [TagNamesNodup, ht2, ht1]; exact h1)
    (by rw [CtPairsNodup, hc2, hc1]; exact h2)

def payloadTagA : ContentPayload :=
  ⟨⟨"a1", "alice", "Alice", "", ""⟩, "cA", "tA", "", ⟨0, 0, 0, 0⟩, ["x"]⟩

def payloadTagB : ContentPayload :=
  ⟨⟨"a2", "bob", "Bob", "", ""⟩, "cB", "tB", "", ⟨0, 0, 0, 0⟩, ["x"]⟩

/-- C8: across any sequence of POSTed items the Write API preserves the
no-duplicate-Tag-name and no-duplicate-(content, tag) invariants; after
posting an item every one of its hashtags has exactly one Tag row; and
posting two items sharing one hashtag yields exactly one Tag row and two
ContentTag rows. -/
theorem claimC8 :
    (∀ (store : Store) (l : List ContentPayload),
      TagNamesNodup store → CtPairsNodup store →
      TagNamesNodup (postMany store l) ∧ CtPairsNodup (postMany store l)) ∧
    (∀ (store : Store) (cp : ContentPayload) (n : String),
      TagNamesNodup store → CtPairsNodup store → n ∈ cp.hashtags →
      ((postOneItem store cp).1).tags.countP (fun t => t.name == n) = 1) ∧
    (postMany emptyStore [payloadTagA, payloadTagB]).tags.length = 1 ∧
    (postMany emptyStore [payloadTagA, payloadTagB]).contentTags.length =
      2 := by
  refine ⟨?_, ?_, by decide, by decide⟩
  · intro store l
    induction l generalizing store with
    | nil => intro ha hb; exact ⟨ha, hb⟩
    | cons cp rest ih =>
      intro ha hb
      obtain ⟨ha', hb', _⟩ := postOneItem_inv store cp ha hb
      exact ih _ ha' hb'
  · intro store cp n ha hb hn
    exact (postOneItem_inv store cp ha hb).2.2 n hn

theorem claimC8_witness :
    (TagNamesNodup (postMany emptyStore [payloadTagA]) ∧
      CtPairsNodup (postMany emptyStore [payloadTagA])) ∧
    ((postOneItem emptyStore payloadTagA).1).tags.countP
      (fun t => t.name == "x") = 1 :=
  ⟨claimC8.1 emptyStore [payloadTagA] (by decide) (by decide),
   claimC8.2.1 emptyStore payloadTagA "x" (by decide) (by decide)
     (by decide)⟩

end Zelf
